import Mathlib

/-!
Shallow embedding of `fontgen` (src/main.rs): a utility that converts a
scalable font into a bitmap font atlas.  The embedding below translates the
atlas-geometry, glyph-sampling, metadata-building, compositing and CLI
validation code into Lean definitions.  `f32` arithmetic of the source is
modelled exactly over `ℚ` (all divisions at issue are by positive integers),
`usize`/`i32`/`i64` are modelled by `Nat`/`Int` (the program's buffer
allocations keep every quantity far below any machine-width bound), and the
two stateful external collaborators (the FreeType rasterizer and the file
system) are modelled as deterministic oracles supplied as structures of
functions.
-/

/-- `bmfa::Origin`: the coordinate origin of the atlas image. -/
inductive Origin where
  | TopLeft
  | BottomLeft
deriving DecidableEq

/-- `AtlasSpec` (src/main.rs lines 20-38): dimensions of the atlas and of each
glyph slot. -/
structure AtlasSpec where
  origin : Origin
  width : Nat
  height : Nat
  rows : Nat
  columns : Nat
  padding : Nat
  slot_glyph_size : Nat
  glyph_size : Nat
deriving DecidableEq

/-- `GlyphImage` (lines 59-71): the owned copy of one glyph's coverage
bitmap. -/
structure GlyphImage where
  data : List Nat
deriving DecidableEq

/-- `GlyphTable` (lines 73-86).  The four `Vec`s of length 256 are modelled as
total functions on code points; the `HashMap<usize, GlyphImage>` is modelled
as its key list together with a total lookup function (meaningful on the
keys). -/
structure GlyphTable where
  rows : Nat → Int
  width : Nat → Int
  pitch : Nat → Int
  y_min : Nat → Int
  buffer_keys : List Nat
  buffer : Nat → GlyphImage

/-- `bmfa::GlyphMetadata`, with the constructor-argument order used at
lines 222 and 238: `(code_point, row, column, width, height, x_min, y_min,
y_offset)`.  The `f32` fields are modelled over `ℚ`. -/
structure GlyphMetadata where
  code_point : Nat
  row : Nat
  column : Nat
  width : ℚ
  height : ℚ
  x_min : ℚ
  y_min : ℚ
  y_offset : ℚ
deriving DecidableEq

/-- The space record inserted at line 222:
`GlyphMetadata::new(32, 0, 0, 0.5, 1.0, 0.0, 0.0, 0.0)`. -/
def spaceGlyphMetadata : GlyphMetadata :=
  ⟨32, 0, 0, 1/2, 1, 0, 0, 0⟩

/-- The body of the loop of `create_bitmap_metadata` (lines 224-239) for one
key `i` of the glyph table.  Note that the `row` local first bound at
line 227 is `order % spec.columns` (the same expression as `col`), and it is
this value that feeds `y_min` at line 231; the `row` stored in the record is
the shadowing rebinding `order / spec.rows` of line 236. -/
def glyphMetadataFor (glyph_tab : GlyphTable) (spec : AtlasSpec) (i : Nat) :
    GlyphMetadata :=
  let order := i - 32
  let col := order % spec.columns
  let row0 := order % spec.columns
  let x_min : ℚ := ((col * spec.slot_glyph_size : Nat) : ℚ) / (spec.width : ℚ)
  let y_min : ℚ := ((row0 * spec.slot_glyph_size : Nat) : ℚ) / (spec.height : ℚ)
  let width : ℚ :=
    ((glyph_tab.width i + (spec.padding : Int) : Int) : ℚ) / (spec.slot_glyph_size : ℚ)
  let height : ℚ :=
    ((glyph_tab.rows i + (spec.padding : Int) : Int) : ℚ) / (spec.slot_glyph_size : ℚ)
  let y_offset : ℚ :=
    (-((spec.padding : ℚ) - (glyph_tab.y_min i : ℚ))) / (spec.slot_glyph_size : ℚ)
  let row := order / spec.rows
  let column := order % spec.columns
  ⟨i, row, column, width, height, x_min, y_min, y_offset⟩

/-- Insertion into the model of a `HashMap<usize, GlyphMetadata>`: later
inserts shadow earlier ones. -/
def mmInsert (m : Nat → Option GlyphMetadata) (k : Nat) (v : GlyphMetadata) :
    Nat → Option GlyphMetadata :=
  fun c => if c = k then some v else m c

/-- `create_bitmap_metadata` (lines 220-243): insert the fixed space record
for code point 32, then one computed record per key of the glyph table's
buffer.  The result is the lookup function of the produced map. -/
def create_bitmap_metadata (glyph_tab : GlyphTable) (spec : AtlasSpec) :
    Nat → Option GlyphMetadata :=
  glyph_tab.buffer_keys.foldl
    (fun m i => mmInsert m i (glyphMetadataFor glyph_tab spec i))
    (mmInsert (fun _ => none) 32 spaceGlyphMetadata)

/-- The four RGBA bytes written for destination pixel `(x, y)` by the body of
the double loop of `create_bitmap_image` (lines 252-309).  The running
`atlas_buffer_index` of the source advances by exactly 4 per pixel in
row-major order, so the loop body is a function of `(x, y)` alone; the
`i32` locals `x_loc`/`y_loc` are modelled over `Int`, and the panicking
indexing `data[byte_order_in_glyph as usize]` is modelled by `getD _ 0`
(the in-bounds condition is established separately). -/
def pixelBytes (glyph_tab : GlyphTable) (spec : AtlasSpec) (x y : Nat) :
    List Nat :=
  let col := x / spec.slot_glyph_size
  let row := y / spec.slot_glyph_size
  let order := row * spec.columns + col
  let glyph_index := order + 32
  if 32 < glyph_index ∧ glyph_index < 256 then
    let x_loc : Int := ((x % spec.slot_glyph_size : Nat) : Int) - ((spec.padding / 2 : Nat) : Int)
    let y_loc : Int := ((y % spec.slot_glyph_size : Nat) : Int) - ((spec.padding / 2 : Nat) : Int)
    if x_loc < 0 ∨ y_loc < 0 ∨ glyph_tab.width glyph_index ≤ x_loc ∨
        glyph_tab.rows glyph_index ≤ y_loc then
      [0, 0, 0, 0]
    else
      let byte_order_in_glyph := y_loc * glyph_tab.width glyph_index + x_loc
      let coverage := (glyph_tab.buffer glyph_index).data.getD byte_order_in_glyph.toNat 0
      [coverage, coverage, coverage, coverage]
  else
    [0, 0, 0, 0]

/-- One row `y` of the destination buffer: the inner `for x in 0..spec.width`
loop of lines 253-309. -/
def atlasRowBytes (glyph_tab : GlyphTable) (spec : AtlasSpec) (y : Nat) :
    List Nat :=
  (List.range spec.width).flatMap (fun x => pixelBytes glyph_tab spec x y)

/-- The full destination buffer before any flip: the outer
`for y in 0..spec.height` loop of lines 252-310. -/
def atlasFill (glyph_tab : GlyphTable) (spec : AtlasSpec) : List Nat :=
  (List.range spec.height).flatMap (atlasRowBytes glyph_tab spec)

/-- The vertical flip of lines 315-324: the swap loop exchanges byte row `i`
with byte row `height − 1 − i` for `i < height / 2`, four bytes per pixel;
its net effect is that output row `r` is input row `height − 1 − r` (the
middle row of an odd-height image is its own partner and is unchanged). -/
def flipVert (width height : Nat) (buf : List Nat) : List Nat :=
  (List.range height).flatMap (fun r =>
    (List.range (4 * width)).map (fun c =>
      buf.getD ((height - 1 - r) * (4 * width) + c) 0))

/-- `create_bitmap_image` (lines 246-330): fill the buffer in row-major
order, then flip vertically exactly when the configured origin is
`BottomLeft`.  The result is the final byte buffer of the
`bmfa::BitmapFontAtlasImage`. -/
def create_bitmap_image (glyph_tab : GlyphTable) (spec : AtlasSpec) :
    List Nat :=
  let atlas_buffer := atlasFill glyph_tab spec
  if spec.origin = Origin.BottomLeft then
    flipVert spec.width spec.height atlas_buffer
  else
    atlas_buffer

/-- Replace the origin field of an `AtlasSpec`, keeping all geometry. -/
def withOrigin (spec : AtlasSpec) (o : Origin) : AtlasSpec :=
  ⟨o, spec.width, spec.height, spec.rows, spec.columns, spec.padding,
    spec.slot_glyph_size, spec.glyph_size⟩

/-- `SampleTypefaceError` (lines 104-110).  The opaque
`freetype::error::Error` payloads are modelled as numeric error codes. -/
inductive SampleTypefaceError where
  | SetPixelSize (e : Nat) (code_point : Nat) (pixels : Nat)
  | LoadCharacter (e : Nat) (code_point : Nat)
  | RenderCharacter (e : Nat) (code_point : Nat)
  | GetGlyphImage (e : Nat) (code_point : Nat)
deriving DecidableEq

/-- The FreeType face, modelled as a deterministic oracle: for each code
point, whether each fallible call succeeds, and the bitmap dimensions,
bytes and bounding box the library reports once the glyph for that code
point has been loaded and rendered. -/
structure Rasterizer where
  set_pixel_sizes : Nat → Nat → Except Nat Unit
  load_char : Nat → Except Nat Unit
  render_glyph : Nat → Except Nat Unit
  bitmap_rows : Nat → Int
  bitmap_width : Nat → Int
  bitmap_pitch : Nat → Int
  bitmap_buffer : Nat → List Nat
  get_glyph : Nat → Except Nat Unit
  cbox_yMin : Nat → Int

/-- `create_glyph_image` (lines 92-101): allocate `rows * pitch` zero bytes
and `clone_from_slice` the rasterizer's internal buffer into them.
`clone_from_slice` panics unless the source has exactly `rows * pitch`
bytes; the model truncates or zero-pads in that (unreachable) case, so the
owned copy always has length `rows * pitch`. -/
def create_glyph_image (rows pitch : Nat) (buffer : List Nat) : GlyphImage :=
  ⟨buffer.take (rows * pitch) ++ List.replicate (rows * pitch - buffer.length) 0⟩

/-- Pointwise update of one of the 256-entry metric `Vec`s. -/
def vecUpdate (v : Nat → Int) (i : Nat) (x : Int) : Nat → Int :=
  fun j => if j = i then x else v j

/-- Insertion into the model of the `HashMap<usize, GlyphImage>`. -/
def bufUpdate (b : Nat → GlyphImage) (i : Nat) (g : GlyphImage) :
    Nat → GlyphImage :=
  fun j => if j = i then g else b j

/-- The empty `GlyphTable` built at lines 161-169: four zeroed `Vec`s of
length 256 and an empty `HashMap`. -/
def emptyGlyphTable : GlyphTable :=
  ⟨fun _ => 0, fun _ => 0, fun _ => 0, fun _ => 0, [], fun _ => ⟨[]⟩⟩

/-- The body of the `for i in 33..256` loop of `sample_typeface`
(lines 176-208), iterated over the remaining code points: load the
character, render it, record the bitmap dimensions and the owned copy of
its bytes, then fetch the glyph's bounding box; the first failure aborts
the whole pass with a stage- and code-point-tagged error. -/
def sampleGlyphs (r : Rasterizer) :
    List Nat → GlyphTable → Except SampleTypefaceError GlyphTable
  | [], acc => .ok acc
  | i :: rest, acc =>
    match r.load_char i with
    | .error e => .error (.LoadCharacter e i)
    | .ok _ =>
      match r.render_glyph i with
      | .error e => .error (.RenderCharacter e i)
      | .ok _ =>
        let acc1 : GlyphTable :=
          ⟨vecUpdate acc.rows i (r.bitmap_rows i),
           vecUpdate acc.width i (r.bitmap_width i),
           vecUpdate acc.pitch i (r.bitmap_pitch i),
           acc.y_min,
           acc.buffer_keys ++ [i],
           bufUpdate acc.buffer i
             (create_glyph_image (r.bitmap_rows i).toNat (r.bitmap_pitch i).toNat
               (r.bitmap_buffer i))⟩
        match r.get_glyph i with
        | .error e => .error (.GetGlyphImage e i)
        | .ok _ =>
          sampleGlyphs r rest
            ⟨acc1.rows, acc1.width, acc1.pitch,
             vecUpdate acc1.y_min i (r.cbox_yMin i),
             acc1.buffer_keys, acc1.buffer⟩

/-- The code points the sampling loop draws from: `for i in 33..256`
(line 176). -/
def samplingDomain : List Nat := List.range' 33 223

/-- `sample_typeface` (lines 156-217): configure the pixel size, then run
the sampling loop over the whole code-point range starting from the empty
table. -/
def sample_typeface (r : Rasterizer) (spec : AtlasSpec) :
    Except SampleTypefaceError GlyphTable :=
  match r.set_pixel_sizes 0 spec.glyph_size with
  | .error e => .error (.SetPixelSize e 0 spec.glyph_size)
  | .ok _ => sampleGlyphs r samplingDomain emptyGlyphTable

/-- The first error (if any) that the loop body raises at code point `i`,
read off the oracle: the three fallible per-glyph stages in source order. -/
def stepErr (r : Rasterizer) (i : Nat) : Option SampleTypefaceError :=
  match r.load_char i with
  | .error e => some (.LoadCharacter e i)
  | .ok _ =>
    match r.render_glyph i with
    | .error e => some (.RenderCharacter e i)
    | .ok _ =>
      match r.get_glyph i with
      | .error e => some (.GetGlyphImage e i)
      | .ok _ => none

/-- A filesystem path, modelled as a file stem plus an optional extension —
exactly the granularity `run_app` manipulates through
`PathBuf::set_extension` (line 503). -/
structure PathModel where
  stem : String
  ext : Option String
deriving DecidableEq

/-- `PathBuf::set_extension`: replace (or add) the extension, keeping the
stem. -/
def PathModel.set_extension (p : PathModel) (e : String) : PathModel :=
  ⟨p.stem, some e⟩

/-- The filesystem, as the two query oracles `verify_opt` consults
(`Path::exists`, `Path::is_file`). -/
structure FileSystem where
  path_exists : PathModel → Bool
  is_file : PathModel → Bool

/-- `OptError` (lines 358-366). -/
inductive OptError where
  | InputFileDoesNotExist (p : PathModel)
  | InputFileIsNotAFile (p : PathModel)
  | OutputFileExists (p : PathModel)
  | SlotGlyphSizeCannotBeZero (n : Nat)
  | PaddingLargerThanSlotGlyphSize (padding slot : Nat)
  | InvalidOrigin (s : String)
deriving DecidableEq

/-- `parse_origin` (lines 400-406). -/
def parse_origin (st : String) : Except OptError Origin :=
  if st = "bottom-left" then .ok Origin.BottomLeft
  else if st = "top-left" then .ok Origin.TopLeft
  else .error (.InvalidOrigin st)

/-- The parsed CLI options `Opt` (lines 414-436), after `structopt` has
already parsed `--origin` via `parse_origin`. -/
structure Opt where
  input_path : PathModel
  output_path : PathModel
  slot_glyph_size : Nat
  padding : Nat
  origin : Origin
deriving DecidableEq

/-- `verify_opt` (lines 439-457): the five pre-flight checks in source
order. -/
def verify_opt (fs : FileSystem) (opt : Opt) : Except OptError Unit :=
  if fs.path_exists opt.input_path = false then
    .error (.InputFileDoesNotExist opt.input_path)
  else if fs.is_file opt.input_path = false then
    .error (.InputFileIsNotAFile opt.input_path)
  else if fs.path_exists opt.output_path = true then
    .error (.OutputFileExists opt.output_path)
  else if opt.slot_glyph_size = 0 then
    .error (.SlotGlyphSizeCannotBeZero opt.slot_glyph_size)
  else if opt.slot_glyph_size < opt.padding then
    .error (.PaddingLargerThanSlotGlyphSize opt.padding opt.slot_glyph_size)
  else .ok ()

/-- The three filesystem pre-conditions of `verify_opt`, bundled. -/
def filesOk (fs : FileSystem) (opt : Opt) : Prop :=
  fs.path_exists opt.input_path = true ∧ fs.is_file opt.input_path = true ∧
    fs.path_exists opt.output_path = false

instance (fs : FileSystem) (opt : Opt) : Decidable (filesOk fs opt) := by
  unfold filesOk
  infer_instance

/-- The `AtlasSpec` construction inside `run_app` (lines 494-508): the grid
is fixed at 16 × 16, the atlas is `slot_glyph_size * 16` pixels on each
side, and the usable glyph size is the slot size minus the padding. -/
def build_atlas_spec (origin : Origin) (slot_glyph_size padding : Nat) :
    AtlasSpec :=
  let atlas_columns := 16
  let atlas_rows := 16
  let atlas_height_px := slot_glyph_size * atlas_rows
  let atlas_width_px := slot_glyph_size * atlas_columns
  let atlas_glyph_px := slot_glyph_size - padding
  ⟨origin, atlas_width_px, atlas_height_px, atlas_rows, atlas_columns,
    padding, slot_glyph_size, atlas_glyph_px⟩

/-- `AppError` (lines 459-464). -/
inductive AppError where
  | CouldNotOpenFontFile (p : PathModel)
  | CouldNotCreateBitmapFont (e : SampleTypefaceError)
  | CouldNotCreateAtlasFile (p : PathModel)
deriving DecidableEq

/-- The external collaborators `run_app` touches: the filesystem, whether
`Library::new_face` succeeds on the input font, the FreeType rasterizer,
and whether `bmfa::write_to_file` succeeds on a given path. -/
structure AppEnv where
  fs : FileSystem
  new_face_ok : Bool
  rasterizer : Rasterizer
  write_ok : PathModel → Bool

/-- `run_app` (lines 485-521): open the face, derive the output path by
replacing the extension with `"bmfa"`, build the spec, run the pipeline
(`create_bitmap_atlas`, lines 333-356: sampling, then metadata, then
image), and write the atlas.  On success the model returns the path the
atlas file was written to. -/
def run_app_model (env : AppEnv) (opt : Opt) : Except AppError PathModel :=
  if env.new_face_ok = false then
    .error (.CouldNotOpenFontFile opt.input_path)
  else
    let atlas_file := opt.output_path.set_extension "bmfa"
    let atlas_spec :=
      build_atlas_spec opt.origin opt.slot_glyph_size opt.padding
    match sample_typeface env.rasterizer atlas_spec with
    | .error e => .error (.CouldNotCreateBitmapFont e)
    | .ok glyph_tab =>
      let _glyph_metadata := create_bitmap_metadata glyph_tab atlas_spec
      let _atlas_image := create_bitmap_image glyph_tab atlas_spec
      if env.write_ok atlas_file = false then
        .error (.CouldNotCreateAtlasFile atlas_file)
      else .ok atlas_file

/-- The unified top-level error of `main` (line 523): either a
configuration error from `verify_opt` or a pipeline error from
`run_app`. -/
inductive MainError where
  | Config (e : OptError)
  | App (e : AppError)
deriving DecidableEq

/-- `main` (lines 523-527): validate the options, then run the pipeline. -/
def main_model (env : AppEnv) (opt : Opt) : Except MainError PathModel :=
  match verify_opt env.fs opt with
  | .error e => .error (.Config e)
  | .ok _ => match run_app_model env opt with
    | .error e => .error (.App e)
    | .ok p => .ok p

/-- The validity invariant of an `AtlasSpec` (spec sections 3 and 4.1): the
grid is the design constant 16 x 16, the pixel dimensions cover the grid
exactly, the usable glyph size is the slot size minus the padding, and the
configuration passed `verify_opt`. -/
def AtlasSpec.valid (spec : AtlasSpec) : Prop :=
  spec.columns = 16 ∧ spec.rows = 16 ∧ 0 < spec.slot_glyph_size ∧
    spec.padding ≤ spec.slot_glyph_size ∧
    spec.width = spec.columns * spec.slot_glyph_size ∧
    spec.height = spec.rows * spec.slot_glyph_size ∧
    spec.glyph_size = spec.slot_glyph_size - spec.padding

/-- The per-pixel value prescribed by the specification's compositor
contract (spec section 4.4), transcribed from the spec's words rather than
from the code, for comparison with `pixelBytes`: outside the sampled
code-point range, or in the padding margin, or past the glyph's ink box,
the channel value is 0; otherwise it is the coverage byte at
`y_loc * glyph_width + x_loc`, written identically into all four
channels. -/
def specPixelValue (glyph_tab : GlyphTable) (spec : AtlasSpec) (x y : Nat) :
    Nat :=
  let column := x / spec.slot_glyph_size
  let row := y / spec.slot_glyph_size
  let order := row * spec.columns + column
  let glyph_index := order + 32
  if glyph_index ≤ 32 ∨ 256 ≤ glyph_index then 0
  else
    let x_loc : Int := ((x % spec.slot_glyph_size : Nat) : Int) - ((spec.padding / 2 : Nat) : Int)
    let y_loc : Int := ((y % spec.slot_glyph_size : Nat) : Int) - ((spec.padding / 2 : Nat) : Int)
    if x_loc < 0 ∨ y_loc < 0 ∨ glyph_tab.width glyph_index ≤ x_loc ∨
        glyph_tab.rows glyph_index ≤ y_loc then 0
    else
      (glyph_tab.buffer glyph_index).data.getD
        (y_loc * glyph_tab.width glyph_index + x_loc).toNat 0

/-- The 1024 x 1024 atlas spec the driver builds for the default
`slot_glyph_size = 64`, `padding = 0` configuration. -/
def specC1 : AtlasSpec := ⟨Origin.TopLeft, 1024, 1024, 16, 16, 0, 64, 64⟩

/-- A glyph table whose only sampled code point is 65 and whose glyph has
zero-size metrics: enough to exercise the metadata formulas at `c = 65`. -/
def tabC1 : GlyphTable :=
  ⟨fun _ => 0, fun _ => 0, fun _ => 0, fun _ => 0, [65], fun _ => ⟨[]⟩⟩

/-- A small valid atlas spec (slot size 1, no padding, 16 x 16 grid). -/
def specW : AtlasSpec := ⟨Origin.TopLeft, 16, 16, 16, 16, 0, 1, 1⟩

/-- A glyph table with exactly the sampled code points `[33, 255]` as keys
and constant small glyph metrics. -/
def tabW : GlyphTable :=
  ⟨fun _ => 1, fun _ => 1, fun _ => 1, fun _ => 0, samplingDomain,
    fun _ => ⟨[7]⟩⟩

/-- A rasterizer oracle on which every FreeType call succeeds and every
glyph is a 1 x 1 bitmap with a single coverage byte. -/
def rW : Rasterizer :=
  ⟨fun _ _ => .ok (), fun _ => .ok (), fun _ => .ok (), fun _ => 1,
    fun _ => 1, fun _ => 1, fun _ => [7], fun _ => .ok (), fun _ => 0⟩

/-- The input font path of the concrete scenarios. -/
def pIn : PathModel := ⟨"font", some "ttf"⟩

/-- An output path whose extension is not `bmfa`. -/
def pPng : PathModel := ⟨"atlas", some "png"⟩

/-- The path `run_app` actually writes for output path `pPng`. -/
def pBmfa : PathModel := ⟨"atlas", some "bmfa"⟩

/-- A filesystem on which the input font exists and is a regular file, the
user-supplied output path `pPng` does not exist, but the derived `pBmfa`
path already exists. -/
def fsC10 : FileSystem :=
  ⟨fun p => decide (p = pIn ∨ p = pBmfa), fun p => decide (p = pIn)⟩

/-- The concrete options of the overwrite scenario: default slot size and
padding, output path `pPng`. -/
def optC10 : Opt := ⟨pIn, pPng, 64, 0, Origin.BottomLeft⟩

/-- The full environment of the overwrite scenario: all external calls
succeed. -/
def envC10 : AppEnv := ⟨fsC10, true, rW, fun _ => true⟩

/-- A glyph table with glyph width 2, 2 rows, pitch 3 and a 6-byte owned
bitmap, for the buffer-bounds scenario. -/
def tabC9 : GlyphTable :=
  ⟨fun _ => 2, fun _ => 2, fun _ => 3, fun _ => 0, [],
    fun _ => ⟨[0, 1, 2, 3, 4, 5]⟩⟩


/-- Options with a zero slot size (and otherwise well-formed paths). -/
def optC6 : Opt := ⟨pIn, pPng, 0, 0, Origin.BottomLeft⟩

/-- A concrete byte buffer of the size of the `specW` atlas image. -/
def bufW : List Nat := List.replicate 1024 0


theorem foldl_mmInsert_lookup (f : Nat → GlyphMetadata) (ks : List Nat)
    (m : Nat → Option GlyphMetadata) (c : Nat) :
    (ks.foldl (fun m i => mmInsert m i (f i)) m) c =
      if c ∈ ks then some (f c) else m c := by
  induction ks generalizing m with
  | nil => simp
  | cons k ks ih =>
    simp only [List.foldl_cons, List.mem_cons]
    rw [ih]
    by_cases hmem : c ∈ ks
    · simp [hmem]
    · by_cases hck : c = k
      · subst hck; simp [hmem, mmInsert]
      · simp [hmem, hck, mmInsert]

theorem create_bitmap_metadata_lookup (glyph_tab : GlyphTable)
    (spec : AtlasSpec) (c : Nat) :
    create_bitmap_metadata glyph_tab spec c =
      if c ∈ glyph_tab.buffer_keys then some (glyphMetadataFor glyph_tab spec c)
      else if c = 32 then some spaceGlyphMetadata else none := by
  unfold create_bitmap_metadata
  rw [foldl_mmInsert_lookup]
  by_cases hmem : c ∈ glyph_tab.buffer_keys <;> simp [hmem, mmInsert]

theorem pixelBytes_length (glyph_tab : GlyphTable) (spec : AtlasSpec)
    (x y : Nat) : (pixelBytes glyph_tab spec x y).length = 4 := by
  simp only [pixelBytes]
  split
  · split <;> rfl
  · rfl

/-- Indexing a concatenation of constant-length chunks. -/
theorem flatMap_const_length_getElem? {α β : Type} (f : α → List β) (L : Nat)
    (hL : ∀ a, (f a).length = L) :
    ∀ (l : List α) (i j : Nat) (a : α), l[i]? = some a → j < L →
      (l.flatMap f)[i * L + j]? = (f a)[j]? := by
  intro l
  induction l with
  | nil => intro i j a h; simp at h
  | cons hd tl ih =>
    intro i j a h hj
    cases i with
    | zero =>
      rw [List.getElem?_cons_zero] at h
      cases h
      simp only [List.flatMap_cons, Nat.zero_mul, Nat.zero_add]
      rw [List.getElem?_append_left]
      rw [hL]
      exact hj
    | succ i =>
      rw [List.getElem?_cons_succ] at h
      simp only [List.flatMap_cons]
      rw [List.getElem?_append_right]
      · rw [hL]
        have : (i + 1) * L + j - L = i * L + j := by ring_nf; omega
        rw [this]
        exact ih i j a h hj
      · rw [hL]
        calc L ≤ (i + 1) * L := by nlinarith
        _ ≤ (i + 1) * L + j := Nat.le_add_right _ _

/-- Length of a concatenation of constant-length chunks. -/
theorem flatMap_const_length_length {α β : Type} (f : α → List β) (L : Nat)
    (hL : ∀ a, (f a).length = L) :
    ∀ l : List α, (l.flatMap f).length = l.length * L := by
  intro l
  induction l with
  | nil => simp
  | cons hd tl ih =>
    simp only [List.flatMap_cons, List.length_append, List.length_cons, ih, hL]
    ring

theorem atlasRowBytes_length (glyph_tab : GlyphTable) (spec : AtlasSpec)
    (y : Nat) : (atlasRowBytes glyph_tab spec y).length = spec.width * 4 := by
  unfold atlasRowBytes
  rw [flatMap_const_length_length _ 4 (fun x => pixelBytes_length glyph_tab spec x y)]
  simp

theorem atlasFill_length (glyph_tab : GlyphTable) (spec : AtlasSpec) :
    (atlasFill glyph_tab spec).length = spec.height * (spec.width * 4) := by
  unfold atlasFill
  rw [flatMap_const_length_length _ (spec.width * 4)
    (atlasRowBytes_length glyph_tab spec)]
  simp

/-- The byte at offset `k` of the four bytes the compositing loop writes for
pixel `(x, y)` sits at buffer offset `(y * width + x) * 4 + k`. -/
theorem atlasFill_getElem? (glyph_tab : GlyphTable) (spec : AtlasSpec)
    (x y k : Nat) (hx : x < spec.width) (hy : y < spec.height) (hk : k < 4) :
    (atlasFill glyph_tab spec)[(y * spec.width + x) * 4 + k]? =
      (pixelBytes glyph_tab spec x y)[k]? := by
  unfold atlasFill
  have hidx : (y * spec.width + x) * 4 + k = y * (spec.width * 4) + (x * 4 + k) := by
    ring
  rw [hidx]
  rw [flatMap_const_length_getElem? _ (spec.width * 4)
    (atlasRowBytes_length glyph_tab spec) _ y (x * 4 + k) y
    (List.getElem?_range hy) (by nlinarith)]
  unfold atlasRowBytes
  exact flatMap_const_length_getElem? _ 4
    (fun x => pixelBytes_length glyph_tab spec x y) _ x k x
    (List.getElem?_range hx) hk

theorem flipVert_getElem? (width height : Nat) (buf : List Nat) (r c : Nat)
    (hr : r < height) (hc : c < 4 * width) :
    (flipVert width height buf)[r * (4 * width) + c]? =
      some (buf.getD ((height - 1 - r) * (4 * width) + c) 0) := by
  unfold flipVert
  rw [flatMap_const_length_getElem? _ (4 * width)
    (fun r => by simp) _ r c r (List.getElem?_range hr) hc]
  simp [List.getElem?_range hc]

theorem flipVert_length (width height : Nat) (buf : List Nat) :
    (flipVert width height buf).length = height * (4 * width) := by
  unfold flipVert
  rw [flatMap_const_length_length _ (4 * width) (fun r => by simp)]
  simp

/-- The vertical flip is an involution on buffers of the image's size. -/
theorem flipVert_flipVert (width height : Nat) (buf : List Nat)
    (hlen : buf.length = height * (4 * width)) :
    flipVert width height (flipVert width height buf) = buf := by
  apply List.ext_getElem?
  intro n
  by_cases hn : n < height * (4 * width)
  · have hw : 0 < 4 * width := by
      rcases Nat.eq_zero_or_pos width with h0 | h0
      · subst h0; simp at hn
      · omega
    set W := 4 * width with hW
    have hr : n / W < height := (Nat.div_lt_iff_lt_mul hw).mpr hn
    have hc : n % W < W := Nat.mod_lt _ hw
    have hdecomp : n / W * W + n % W = n := Nat.div_add_mod' n W
    rw [← hdecomp]
    rw [flipVert_getElem? width height _ (n / W) (n % W) hr hc]
    have hpos : 0 < height := Nat.lt_of_le_of_lt (Nat.zero_le _) hr
    have hr' : height - 1 - n / W < height :=
      Nat.lt_of_le_of_lt (Nat.sub_le (height - 1) (n / W))
        (Nat.sub_lt hpos Nat.one_pos)
    rw [List.getD_eq_getElem?_getD]
    rw [flipVert_getElem? width height buf (height - 1 - n / W) (n % W) hr' hc]
    have hback : height - 1 - (height - 1 - n / W) = n / W :=
      Nat.sub_sub_self (Nat.le_pred_of_lt hr)
    rw [hback]
    have hlt : n / W * W + n % W < buf.length := by
      rw [hdecomp, hlen]
      exact hn
    rw [List.getD_eq_getElem?_getD, List.getElem?_eq_getElem hlt]
    simp
  · have h1 : (flipVert width height (flipVert width height buf))[n]? = none := by
      apply List.getElem?_eq_none
      rw [flipVert_length]
      omega
    have h2 : buf[n]? = none := by
      apply List.getElem?_eq_none
      rw [hlen]
      omega
    rw [h1, h2]

theorem atlasFill_withOrigin (glyph_tab : GlyphTable) (spec : AtlasSpec)
    (o : Origin) :
    atlasFill glyph_tab (withOrigin spec o) = atlasFill glyph_tab spec := by
  cases spec
  rfl

theorem create_glyph_image_length (rows pitch : Nat) (buffer : List Nat) :
    (create_glyph_image rows pitch buffer).data.length = rows * pitch := by
  simp only [create_glyph_image, List.length_append, List.length_take,
    List.length_replicate]
  omega

theorem sampleGlyphs_ok (r : Rasterizer) (l : List Nat)
    (h : ∀ j ∈ l, stepErr r j = none) (acc : GlyphTable) :
    ∃ acc', sampleGlyphs r l acc = .ok acc' := by
  induction l generalizing acc with
  | nil => exact ⟨acc, rfl⟩
  | cons i rest ih =>
    have hi := h i (List.mem_cons_self i rest)
    cases hload : r.load_char i with
    | error e => rw [stepErr, hload] at hi; simp at hi
    | ok u =>
      cases hrender : r.render_glyph i with
      | error e => rw [stepErr, hload, hrender] at hi; simp at hi
      | ok v =>
        cases hget : r.get_glyph i with
        | error e => rw [stepErr, hload, hrender, hget] at hi; simp at hi
        | ok w =>
          rw [sampleGlyphs, hload, hrender, hget]
          exact ih (fun j hj => h j (List.mem_cons_of_mem _ hj)) _

theorem sampleGlyphs_first_error (r : Rasterizer) (c : Nat)
    (err : SampleTypefaceError) (hc : stepErr r c = some err) :
    ∀ (l₁ l₂ : List Nat) (acc : GlyphTable), (∀ j ∈ l₁, stepErr r j = none) →
      sampleGlyphs r (l₁ ++ c :: l₂) acc = .error err := by
  intro l₁
  induction l₁ with
  | nil =>
    intro l₂ acc _
    rw [List.nil_append]
    cases hload : r.load_char c with
    | error e =>
      rw [stepErr, hload] at hc
      cases hc
      rw [sampleGlyphs, hload]
    | ok u =>
      cases hrender : r.render_glyph c with
      | error e =>
        rw [stepErr, hload, hrender] at hc
        cases hc
        rw [sampleGlyphs, hload, hrender]
      | ok v =>
        cases hget : r.get_glyph c with
        | error e =>
          rw [stepErr, hload, hrender, hget] at hc
          cases hc
          rw [sampleGlyphs, hload, hrender, hget]
        | ok w =>
          rw [stepErr, hload, hrender, hget] at hc
          cases hc
  | cons i rest ih =>
    intro l₂ acc h₁
    have hi := h₁ i (List.mem_cons_self i rest)
    cases hload : r.load_char i with
    | error e => rw [stepErr, hload] at hi; simp at hi
    | ok u =>
      cases hrender : r.render_glyph i with
      | error e => rw [stepErr, hload, hrender] at hi; simp at hi
      | ok v =>
        cases hget : r.get_glyph i with
        | error e => rw [stepErr, hload, hrender, hget] at hi; simp at hi
        | ok w =>
          rw [List.cons_append, sampleGlyphs, hload, hrender, hget]
          exact ih l₂ _ (fun j hj => h₁ j (List.mem_cons_of_mem _ hj))

/-- Splitting the sampling domain at a member code point. -/
theorem samplingDomain_split (c : Nat) (hc : c ∈ samplingDomain) :
    samplingDomain =
      List.range' 33 (c - 33) ++ c :: List.range' (c + 1) (255 - c) := by
  have hmem : 33 ≤ c ∧ c < 256 := by
    simpa [samplingDomain] using hc
  have h1 : c :: List.range' (c + 1) (255 - c) = List.range' c (255 - c + 1) := by
    rw [List.range'_succ]
  rw [h1]
  have h2 : List.range' 33 (c - 33) ++ List.range' (33 + (c - 33)) (255 - c + 1) =
      List.range' 33 (255 - c + 1 + (c - 33)) := List.range'_append_1 _ _ _
  have h3 : 33 + (c - 33) = c := by omega
  have h4 : 255 - c + 1 + (c - 33) = 223 := by omega
  rw [h3] at h2
  rw [h4] at h2
  rw [samplingDomain, ← h2]

theorem verify_opt_ok_iff (fs : FileSystem) (opt : Opt) :
    verify_opt fs opt = .ok () ↔
      (filesOk fs opt ∧ 0 < opt.slot_glyph_size ∧
        opt.padding ≤ opt.slot_glyph_size) := by
  unfold verify_opt filesOk
  cases h1 : fs.path_exists opt.input_path <;>
  cases h2 : fs.is_file opt.input_path <;>
  cases h3 : fs.path_exists opt.output_path <;>
  by_cases h4 : opt.slot_glyph_size = 0 <;>
  by_cases h5 : opt.slot_glyph_size < opt.padding <;>
  simp [h4, h5] <;> omega

/-- C1: the claim states that the metadata builder satisfies the spec's
formulas with `row = order / grid_rows`, in particular
`y_min = (row * slot_glyph_size) / atlas_height` with that `row` — not
`order % grid_columns`.  The code instead feeds `order % grid_columns`
into `y_min` (line 227 binds `row` to `order % spec.columns` and line 231
uses it), so the claim fails: at code point 65 (order 33) on the default
16 x 16, slot-64 spec the produced record has `row = 2` but
`y_min = 1/16`, whereas the claimed formula gives `2 * 64 / 1024 = 1/8`.
This theorem evaluates the embedded builder at that failing input and
exhibits the divergence. -/
theorem C1_y_min_uses_mod_columns :
    ∃ m : GlyphMetadata,
      create_bitmap_metadata tabC1 specC1 65 = some m ∧
      m.row = (65 - 32) / specC1.rows ∧
      m.column = (65 - 32) % specC1.columns ∧
      m.row = 2 ∧ m.y_min = 1/16 ∧
      ((m.row * specC1.slot_glyph_size : Nat) : ℚ) / (specC1.height : ℚ) = 1/8 ∧
      m.y_min ≠ ((m.row * specC1.slot_glyph_size : Nat) : ℚ) / (specC1.height : ℚ) := by
  refine ⟨glyphMetadataFor tabC1 specC1 65, rfl, ?_, ?_, ?_, ?_, ?_, ?_⟩
  · decide
  · decide
  · decide
  · norm_num [glyphMetadataFor, tabC1, specC1]
  · norm_num [glyphMetadataFor, tabC1, specC1]
  · norm_num [glyphMetadataFor, tabC1, specC1]

/-- C4: for every glyph table whose key set is `[33, 255]` and every valid
atlas spec, the metadata map has exactly one entry for each code point in
`{32} ∪ [33, 255]` and no others, and for each `c ∈ [33, 255]` the entry
satisfies `0 ≤ x_min < 1` and `0 ≤ y_min < 1`. -/
theorem C4_metadata_entries (glyph_tab : GlyphTable) (spec : AtlasSpec)
    (hkeys : ∀ c, c ∈ glyph_tab.buffer_keys ↔ (33 ≤ c ∧ c ≤ 255))
    (hvalid : spec.valid) :
    (∀ c, (create_bitmap_metadata glyph_tab spec c).isSome ↔
      (c = 32 ∨ (33 ≤ c ∧ c ≤ 255))) ∧
    (∀ c, 33 ≤ c → c ≤ 255 →
      ∃ m, create_bitmap_metadata glyph_tab spec c = some m ∧
        0 ≤ m.x_min ∧ m.x_min < 1 ∧ 0 ≤ m.y_min ∧ m.y_min < 1) := by
  obtain ⟨hcol, hrow, hslot, hpad, hw, hh, hg⟩ := hvalid
  constructor
  · intro c
    rw [create_bitmap_metadata_lookup]
    by_cases hc : c ∈ glyph_tab.buffer_keys
    · simp only [hc, if_true, Option.isSome_some, true_iff]
      exact Or.inr ((hkeys c).mp hc)
    · have hnr : ¬(33 ≤ c ∧ c ≤ 255) := fun h => hc ((hkeys c).mpr h)
      by_cases h32 : c = 32
      · subst h32
        simp [hc]
      · simp [hc, h32, hnr]
  · intro c h33 h255
    have hc : c ∈ glyph_tab.buffer_keys := (hkeys c).mpr ⟨h33, h255⟩
    rw [create_bitmap_metadata_lookup]
    simp only [hc, if_true]
    refine ⟨glyphMetadataFor glyph_tab spec c, rfl, ?_, ?_, ?_, ?_⟩
    · exact div_nonneg (Nat.cast_nonneg _) (Nat.cast_nonneg _)
    · have hxeq : (glyphMetadataFor glyph_tab spec c).x_min =
        (((c - 32) % spec.columns * spec.slot_glyph_size : Nat) : ℚ) /
          (spec.width : ℚ) := rfl
      rw [hxeq]
      have hwpos : 0 < spec.width := by
        rw [hw, hcol]
        exact Nat.mul_pos (by norm_num) hslot
      rw [div_lt_one (by exact_mod_cast hwpos)]
      have hm : (c - 32) % 16 < 16 := Nat.mod_lt _ (by norm_num)
      have hlt : (c - 32) % spec.columns * spec.slot_glyph_size < spec.width := by
        rw [hw, hcol]
        exact Nat.mul_lt_mul_of_lt_of_le hm (Nat.le_refl _) hslot
      exact_mod_cast hlt
    · exact div_nonneg (Nat.cast_nonneg _) (Nat.cast_nonneg _)
    · have hyeq : (glyphMetadataFor glyph_tab spec c).y_min =
        (((c - 32) % spec.columns * spec.slot_glyph_size : Nat) : ℚ) /
          (spec.height : ℚ) := rfl
      rw [hyeq]
      have hhpos : 0 < spec.height := by
        rw [hh, hrow]
        exact Nat.mul_pos (by norm_num) hslot
      rw [div_lt_one (by exact_mod_cast hhpos)]
      have hm : (c - 32) % 16 < 16 := Nat.mod_lt _ (by norm_num)
      have hlt : (c - 32) % spec.columns * spec.slot_glyph_size < spec.height := by
        rw [hh, hrow, hcol]
        exact Nat.mul_lt_mul_of_lt_of_le hm (Nat.le_refl _) hslot
      exact_mod_cast hlt

/-- C4 witness: the hypotheses are satisfiable — the table `tabW` with key
list `[33, 255]` and the small valid spec `specW` — and the theorem applies
there. -/
theorem C4_metadata_entries_witness :
    (∀ c, c ∈ tabW.buffer_keys ↔ (33 ≤ c ∧ c ≤ 255)) ∧ specW.valid ∧
    ((∀ c, (create_bitmap_metadata tabW specW c).isSome ↔
      (c = 32 ∨ (33 ≤ c ∧ c ≤ 255))) ∧
    (∀ c, 33 ≤ c → c ≤ 255 →
      ∃ m, create_bitmap_metadata tabW specW c = some m ∧
        0 ≤ m.x_min ∧ m.x_min < 1 ∧ 0 ≤ m.y_min ∧ m.y_min < 1)) := by
  have hkeys : ∀ c, c ∈ tabW.buffer_keys ↔ (33 ≤ c ∧ c ≤ 255) := by
    intro c
    show c ∈ samplingDomain ↔ _
    rw [samplingDomain]
    rw [List.mem_range'_1]
    omega
  have hvalid : specW.valid := by
    refine ⟨rfl, rfl, ?_, ?_, rfl, rfl, rfl⟩ <;> decide
  exact ⟨hkeys, hvalid, C4_metadata_entries tabW specW hkeys hvalid⟩

/-- C7: for every glyph table whose key set omits 32 (as every sampled
table's does, since sampling iterates over `[33, 255]`) and every atlas
spec, the metadata map carries code point 32 to the unconditionally
inserted space record with `width = 0.5`, `height = 1.0`,
`x_min = y_min = y_offset = 0`, regardless of the spec's parameters; and
code point 32 is never passed to the rasterizer, because the sampling
loop's domain is exactly `[33, 255]`. -/
theorem C7_space_entry (glyph_tab : GlyphTable) (spec : AtlasSpec)
    (h32 : 32 ∉ glyph_tab.buffer_keys) :
    create_bitmap_metadata glyph_tab spec 32 = some spaceGlyphMetadata ∧
    spaceGlyphMetadata.width = 1/2 ∧ spaceGlyphMetadata.height = 1 ∧
    spaceGlyphMetadata.x_min = 0 ∧ spaceGlyphMetadata.y_min = 0 ∧
    spaceGlyphMetadata.y_offset = 0 ∧
    32 ∉ samplingDomain ∧
    (∀ c, c ∈ samplingDomain ↔ (33 ≤ c ∧ c ≤ 255)) := by
  refine ⟨?_, rfl, rfl, rfl, rfl, rfl, ?_, ?_⟩
  · rw [create_bitmap_metadata_lookup]
    simp [h32]
  · rw [samplingDomain, List.mem_range'_1]
    omega
  · intro c
    rw [samplingDomain, List.mem_range'_1]
    omega

/-- C7 witness: the hypothesis holds for the concrete sampled table `tabW`,
whose key list is the sampling domain, and the theorem applies there. -/
theorem C7_space_entry_witness :
    32 ∉ tabW.buffer_keys ∧
    create_bitmap_metadata tabW specW 32 = some spaceGlyphMetadata := by
  have h32 : 32 ∉ tabW.buffer_keys := by
    show 32 ∉ samplingDomain
    rw [samplingDomain, List.mem_range'_1]
    omega
  exact ⟨h32, (C7_space_entry tabW specW h32).1⟩

/-- C5: every `AtlasSpec` the driver builds from a configuration accepted
by `verify_opt` satisfies `width = columns * slot_glyph_size`,
`height = rows * slot_glyph_size`, `glyph_size = slot_glyph_size − padding`
and `padding ≤ slot_glyph_size`, with the grid fixed at 16 × 16; in
particular `slot_glyph_size = 64` with `padding = 0` yields a 1024 × 1024
atlas. -/
theorem C5_driver_spec_invariants (fs : FileSystem) (opt : Opt)
    (hok : verify_opt fs opt = .ok ()) :
    (build_atlas_spec opt.origin opt.slot_glyph_size opt.padding).width =
      (build_atlas_spec opt.origin opt.slot_glyph_size opt.padding).columns *
        (build_atlas_spec opt.origin opt.slot_glyph_size opt.padding).slot_glyph_size ∧
    (build_atlas_spec opt.origin opt.slot_glyph_size opt.padding).height =
      (build_atlas_spec opt.origin opt.slot_glyph_size opt.padding).rows *
        (build_atlas_spec opt.origin opt.slot_glyph_size opt.padding).slot_glyph_size ∧
    (build_atlas_spec opt.origin opt.slot_glyph_size opt.padding).glyph_size =
      (build_atlas_spec opt.origin opt.slot_glyph_size opt.padding).slot_glyph_size -
        (build_atlas_spec opt.origin opt.slot_glyph_size opt.padding).padding ∧
    (build_atlas_spec opt.origin opt.slot_glyph_size opt.padding).padding ≤
      (build_atlas_spec opt.origin opt.slot_glyph_size opt.padding).slot_glyph_size ∧
    (build_atlas_spec opt.origin opt.slot_glyph_size opt.padding).columns = 16 ∧
    (build_atlas_spec opt.origin opt.slot_glyph_size opt.padding).rows = 16 ∧
    (build_atlas_spec opt.origin 64 0).width = 1024 ∧
    (build_atlas_spec opt.origin 64 0).height = 1024 := by
  obtain ⟨hfiles, hslot, hpad⟩ := (verify_opt_ok_iff fs opt).mp hok
  refine ⟨?_, ?_, rfl, hpad, rfl, rfl, rfl, rfl⟩
  · exact Nat.mul_comm _ _
  · exact Nat.mul_comm _ _

/-- C5 witness: the concrete options `optC10` pass `verify_opt` on the
filesystem `fsC10`, and the theorem applies there. -/
theorem C5_driver_spec_invariants_witness :
    verify_opt fsC10 optC10 = .ok () ∧
    ((build_atlas_spec optC10.origin optC10.slot_glyph_size optC10.padding).width =
      (build_atlas_spec optC10.origin optC10.slot_glyph_size optC10.padding).columns *
        (build_atlas_spec optC10.origin optC10.slot_glyph_size optC10.padding).slot_glyph_size ∧
    (build_atlas_spec optC10.origin optC10.slot_glyph_size optC10.padding).height =
      (build_atlas_spec optC10.origin optC10.slot_glyph_size optC10.padding).rows *
        (build_atlas_spec optC10.origin optC10.slot_glyph_size optC10.padding).slot_glyph_size ∧
    (build_atlas_spec optC10.origin optC10.slot_glyph_size optC10.padding).glyph_size =
      (build_atlas_spec optC10.origin optC10.slot_glyph_size optC10.padding).slot_glyph_size -
        (build_atlas_spec optC10.origin optC10.slot_glyph_size optC10.padding).padding ∧
    (build_atlas_spec optC10.origin optC10.slot_glyph_size optC10.padding).padding ≤
      (build_atlas_spec optC10.origin optC10.slot_glyph_size optC10.padding).slot_glyph_size ∧
    (build_atlas_spec optC10.origin optC10.slot_glyph_size optC10.padding).columns = 16 ∧
    (build_atlas_spec optC10.origin optC10.slot_glyph_size optC10.padding).rows = 16 ∧
    (build_atlas_spec optC10.origin 64 0).width = 1024 ∧
    (build_atlas_spec optC10.origin 64 0).height = 1024) :=
  ⟨rfl, C5_driver_spec_invariants fsC10 optC10 rfl⟩

/-- C6: option validation rejects a zero slot size, a padding exceeding the
slot size, and any `--origin` token other than `"bottom-left"` or
`"top-left"`, each as its own distinct configuration error; validation
succeeds exactly when none of these conditions nor the file-existence
conditions hold; and when validation fails, `main` returns the
configuration error without consulting the rasterizer (the result is the
same for every environment sharing that filesystem), so no rasterization
work begins. -/
theorem C6_validation_rejects (fs : FileSystem) (opt : Opt) (st : String)
    (env : AppEnv) :
    (filesOk fs opt → opt.slot_glyph_size = 0 →
      verify_opt fs opt =
        .error (.SlotGlyphSizeCannotBeZero opt.slot_glyph_size)) ∧
    (filesOk fs opt → 0 < opt.slot_glyph_size →
      opt.slot_glyph_size < opt.padding →
      verify_opt fs opt =
        .error (.PaddingLargerThanSlotGlyphSize opt.padding opt.slot_glyph_size)) ∧
    (st ≠ "bottom-left" → st ≠ "top-left" →
      parse_origin st = .error (.InvalidOrigin st)) ∧
    parse_origin "bottom-left" = .ok Origin.BottomLeft ∧
    parse_origin "top-left" = .ok Origin.TopLeft ∧
    (verify_opt fs opt = .ok () ↔
      (filesOk fs opt ∧ 0 < opt.slot_glyph_size ∧
        opt.padding ≤ opt.slot_glyph_size)) ∧
    (∀ e, verify_opt env.fs opt = .error e →
      main_model env opt = .error (.Config e)) := by
  refine ⟨?_, ?_, ?_, rfl, rfl, verify_opt_ok_iff fs opt, ?_⟩
  · rintro ⟨h1, h2, h3⟩ hz
    rw [verify_opt]
    simp [h1, h2, h3, hz]
  · rintro ⟨h1, h2, h3⟩ hpos hlt
    have hz : ¬(opt.slot_glyph_size = 0) := by omega
    rw [verify_opt]
    simp [h1, h2, h3, hz, hlt]
  · intro hb ht
    rw [parse_origin]
    simp [hb, ht]
  · intro e he
    rw [main_model, he]

/-- C6 witness: the concrete zero-slot-size options `optC6` on the
filesystem `fsC10` satisfy the file conditions and are rejected with the
dedicated zero-slot-size error. -/
theorem C6_validation_rejects_witness :
    filesOk fsC10 optC6 ∧ optC6.slot_glyph_size = 0 ∧
    verify_opt fsC10 optC6 = .error (.SlotGlyphSizeCannotBeZero 0) := by
  have hf : filesOk fsC10 optC6 := by
    refine ⟨rfl, rfl, rfl⟩
  exact ⟨hf, rfl, (C6_validation_rejects fsC10 optC6 "x" envC10).1 hf rfl⟩

/-- The four bytes the compositing loop writes for a pixel are the
spec-prescribed channel value, replicated into all four channels. -/
theorem pixelBytes_eq_replicate (glyph_tab : GlyphTable) (spec : AtlasSpec)
    (x y : Nat) :
    pixelBytes glyph_tab spec x y =
      [specPixelValue glyph_tab spec x y, specPixelValue glyph_tab spec x y,
       specPixelValue glyph_tab spec x y, specPixelValue glyph_tab spec x y] := by
  simp only [pixelBytes, specPixelValue]
  generalize y / spec.slot_glyph_size * spec.columns + x / spec.slot_glyph_size
    + 32 = gi
  by_cases h1 : 32 < gi ∧ gi < 256
  · rw [if_pos h1, if_neg (by omega : ¬(gi ≤ 32 ∨ 256 ≤ gi))]
    by_cases h2 : (((x % spec.slot_glyph_size : Nat) : Int) -
        ((spec.padding / 2 : Nat) : Int)) < 0 ∨
        (((y % spec.slot_glyph_size : Nat) : Int) -
          ((spec.padding / 2 : Nat) : Int)) < 0 ∨
        glyph_tab.width gi ≤ (((x % spec.slot_glyph_size : Nat) : Int) -
          ((spec.padding / 2 : Nat) : Int)) ∨
        glyph_tab.rows gi ≤ (((y % spec.slot_glyph_size : Nat) : Int) -
          ((spec.padding / 2 : Nat) : Int))
    · rw [if_pos h2, if_pos h2]
    · rw [if_neg h2, if_neg h2]
  · rw [if_neg h1, if_pos (by omega : gi ≤ 32 ∨ 256 ≤ gi)]

/-- C2: for every destination pixel `(x, y)` of the composited atlas, all
four RGBA bytes written for it equal the value the spec prescribes: 0
when the pixel's slot maps to a glyph index not strictly between 32 and
256, 0 when the slot-local coordinates `x_loc = x mod slot − padding/2`,
`y_loc = y mod slot − padding/2` fall in the padding margin or at or past
the glyph's ink box (`x_loc < 0 ∨ y_loc < 0 ∨ x_loc ≥ width ∨
y_loc ≥ rows`, so the boundary cases are padding, not ink), and otherwise
the coverage byte at `y_loc * glyph_width + x_loc`. -/
theorem C2_compositor_pixels (glyph_tab : GlyphTable) (spec : AtlasSpec)
    (x y : Nat) (hslot : 0 < spec.slot_glyph_size) (hx : x < spec.width)
    (hy : y < spec.height) :
    ∀ k, k < 4 →
      (atlasFill glyph_tab spec)[(y * spec.width + x) * 4 + k]? =
        some (specPixelValue glyph_tab spec x y) := by
  intro k hk
  rw [atlasFill_getElem? glyph_tab spec x y k hx hy hk]
  rw [pixelBytes_eq_replicate]
  interval_cases k <;> rfl

/-- C2 witness: the theorem applies at the concrete pixel `(1, 1)` of the
small scenario. -/
theorem C2_compositor_pixels_witness :
    0 < specW.slot_glyph_size ∧ 1 < specW.width ∧ 1 < specW.height ∧
    (∀ k, k < 4 →
      (atlasFill tabW specW)[(1 * specW.width + 1) * 4 + k]? =
        some (specPixelValue tabW specW 1 1)) :=
  ⟨by decide, by decide, by decide,
    C2_compositor_pixels tabW specW 1 1 (by decide) (by decide) (by decide)⟩

/-- C3: flipping the buffer composited with origin top-left vertically
yields exactly the buffer composited with origin bottom-left, and the
vertical flip is an involution on buffers of the image's size (swapping
row `i` with row `height − 1 − i`, four bytes per pixel, twice restores
the original). -/
theorem C3_flip_law (glyph_tab : GlyphTable) (spec : AtlasSpec)
    (buf : List Nat)
    (hlen : buf.length = spec.height * (4 * spec.width)) :
    flipVert spec.width spec.height
        (create_bitmap_image glyph_tab (withOrigin spec Origin.TopLeft)) =
      create_bitmap_image glyph_tab (withOrigin spec Origin.BottomLeft) ∧
    flipVert spec.width spec.height (flipVert spec.width spec.height buf) =
      buf := by
  constructor
  · rfl
  · exact flipVert_flipVert _ _ _ hlen

/-- C3 witness: the theorem applies to the concrete table, spec and a
concrete buffer of the right size. -/
theorem C3_flip_law_witness :
    bufW.length = specW.height * (4 * specW.width) ∧
    (flipVert specW.width specW.height
        (create_bitmap_image tabW (withOrigin specW Origin.TopLeft)) =
      create_bitmap_image tabW (withOrigin specW Origin.BottomLeft) ∧
    flipVert specW.width specW.height
        (flipVert specW.width specW.height bufW) = bufW) := by
  have hlen : bufW.length = specW.height * (4 * specW.width) := by
    rw [bufW, List.length_replicate]
    decide
  exact ⟨hlen, C3_flip_law tabW specW bufW hlen⟩

/-- If the sampling loop returns a table, every per-glyph stage succeeded
at every visited code point. -/
theorem sampleGlyphs_all_ok (r : Rasterizer) :
    ∀ (l : List Nat) (acc glyph_tab : GlyphTable),
      sampleGlyphs r l acc = .ok glyph_tab → ∀ j ∈ l, stepErr r j = none := by
  intro l
  induction l with
  | nil => intro acc tab _ j hj; simp at hj
  | cons i rest ih =>
    intro acc tab h j hj
    cases hload : r.load_char i with
    | error e => rw [sampleGlyphs, hload] at h; simp at h
    | ok u =>
      cases hrender : r.render_glyph i with
      | error e => rw [sampleGlyphs, hload, hrender] at h; simp at h
      | ok v =>
        cases hget : r.get_glyph i with
        | error e => rw [sampleGlyphs, hload, hrender, hget] at h; simp at h
        | ok w =>
          rcases List.mem_cons.mp hj with hji | hjr
          · subst hji
            rw [stepErr, hload, hrender, hget]
          · rw [sampleGlyphs, hload, hrender, hget] at h
            exact ih _ _ h j hjr

/-- C8: glyph sampling visits exactly the code points `[33, 255]`, in
strictly ascending order; a pixel-size failure aborts immediately with its
tag; the first per-glyph failure (character load, glyph render, or
outline/bounding-box extraction, each tagged with the offending code
point by `stepErr`) aborts the whole pass with exactly that error; and a
glyph table is returned precisely when every stage succeeded at every
code point — no partial table is ever produced. -/
theorem C8_sampling_order_fail_fast (r : Rasterizer) (spec : AtlasSpec) :
    (∀ c, c ∈ samplingDomain ↔ (33 ≤ c ∧ c ≤ 255)) ∧
    List.Pairwise (· < ·) samplingDomain ∧
    (∀ e, r.set_pixel_sizes 0 spec.glyph_size = .error e →
      sample_typeface r spec = .error (.SetPixelSize e 0 spec.glyph_size)) ∧
    (∀ c err, c ∈ samplingDomain →
      (∀ j ∈ samplingDomain, j < c → stepErr r j = none) →
      stepErr r c = some err →
      r.set_pixel_sizes 0 spec.glyph_size = .ok () →
      sample_typeface r spec = .error err) ∧
    ((∃ glyph_tab, sample_typeface r spec = .ok glyph_tab) ↔
      (r.set_pixel_sizes 0 spec.glyph_size = .ok () ∧
        ∀ j ∈ samplingDomain, stepErr r j = none)) := by
  refine ⟨?_, ?_, ?_, ?_, ?_⟩
  · intro c
    rw [samplingDomain, List.mem_range'_1]
    omega
  · rw [samplingDomain]
    exact List.pairwise_lt_range' 33 223
  · intro e he
    rw [sample_typeface, he]
  · intro c err hc hprev hcerr hsp
    rw [sample_typeface, hsp]
    have hcr : 33 ≤ c ∧ c < 256 := by
      rw [samplingDomain, List.mem_range'_1] at hc
      omega
    rw [samplingDomain_split c hc]
    apply sampleGlyphs_first_error r c err hcerr
    intro j hj
    rw [List.mem_range'_1] at hj
    apply hprev j
    · rw [samplingDomain, List.mem_range'_1]
      omega
    · omega
  · constructor
    · rintro ⟨tab, htab⟩
      cases hsp : r.set_pixel_sizes 0 spec.glyph_size with
      | error e => rw [sample_typeface, hsp] at htab; simp at htab
      | ok u =>
        rw [sample_typeface, hsp] at htab
        exact ⟨rfl, sampleGlyphs_all_ok r _ _ _ htab⟩
    · rintro ⟨hsp, hall⟩
      rw [sample_typeface, hsp]
      exact sampleGlyphs_ok r samplingDomain hall emptyGlyphTable

/-- C8 witness: on the all-successful rasterizer `rW` the success
characterization applies and yields a complete glyph table. -/
theorem C8_sampling_order_fail_fast_witness :
    (rW.set_pixel_sizes 0 specW.glyph_size = .ok () ∧
      ∀ j ∈ samplingDomain, stepErr rW j = none) ∧
    ∃ glyph_tab, sample_typeface rW specW = .ok glyph_tab := by
  have h : rW.set_pixel_sizes 0 specW.glyph_size = .ok () ∧
      ∀ j ∈ samplingDomain, stepErr rW j = none :=
    ⟨rfl, fun j _ => rfl⟩
  exact ⟨h, ((C8_sampling_order_fail_fast rW specW).2.2.2.2).mpr h⟩

/-- C9: in the compositor, for every glyph whose recorded pitch is at least
its recorded width (both non-negative) and whose owned bitmap buffer has
length `rows * pitch` (the length `create_glyph_image` always allocates),
the coverage-byte read at `y_loc * width + x_loc` with
`0 ≤ x_loc < width` and `0 ≤ y_loc < rows` is within the buffer's bounds,
even though rows are addressed by `width` rather than `pitch`. -/
theorem C9_coverage_read_in_bounds (glyph_tab : GlyphTable)
    (glyph_index : Nat) (x_loc y_loc : Int)
    (hw0 : 0 ≤ glyph_tab.width glyph_index)
    (hwp : glyph_tab.width glyph_index ≤ glyph_tab.pitch glyph_index)
    (hr0 : 0 ≤ glyph_tab.rows glyph_index)
    (hlen : ((glyph_tab.buffer glyph_index).data.length : Int) =
      glyph_tab.rows glyph_index * glyph_tab.pitch glyph_index)
    (hx0 : 0 ≤ x_loc) (hx1 : x_loc < glyph_tab.width glyph_index)
    (hy0 : 0 ≤ y_loc) (hy1 : y_loc < glyph_tab.rows glyph_index) :
    (y_loc * glyph_tab.width glyph_index + x_loc).toNat <
      (glyph_tab.buffer glyph_index).data.length := by
  set w := glyph_tab.width glyph_index with hweq
  set p := glyph_tab.pitch glyph_index with hpeq
  set rws := glyph_tab.rows glyph_index with hreq
  have h2 : y_loc * w ≤ (rws - 1) * w := by
    apply mul_le_mul_of_nonneg_right _ hw0
    omega
  have hexp : (rws - 1) * w = rws * w - w := by ring
  have h1 : y_loc * w + x_loc < rws * w := by
    rw [hexp] at h2
    linarith
  have h3 : rws * w ≤ rws * p := mul_le_mul_of_nonneg_left hwp hr0
  have h4 : y_loc * w + x_loc <
      ((glyph_tab.buffer glyph_index).data.length : Int) := by
    rw [hlen]
    linarith
  have ht0 : 0 ≤ y_loc * w + x_loc := add_nonneg (mul_nonneg hy0 hw0) hx0
  generalize y_loc * w + x_loc = t at h4 ht0 ⊢
  omega

/-- C9 witness: the theorem applies to the concrete glyph table `tabC9`
(width 2, 2 rows, pitch 3, 6-byte buffer) at `x_loc = y_loc = 1`. -/
theorem C9_coverage_read_in_bounds_witness :
    (0 ≤ tabC9.width 40 ∧ tabC9.width 40 ≤ tabC9.pitch 40 ∧
      0 ≤ tabC9.rows 40 ∧
      ((tabC9.buffer 40).data.length : Int) =
        tabC9.rows 40 * tabC9.pitch 40 ∧
      (0:Int) ≤ 1 ∧ (1:Int) < tabC9.width 40 ∧ (1:Int) < tabC9.rows 40) ∧
    ((1:Int) * tabC9.width 40 + 1).toNat <
      (tabC9.buffer 40).data.length := by
  refine ⟨⟨by decide, by decide, by decide, by decide, by decide, by decide,
    by decide⟩, ?_⟩
  exact C9_coverage_read_in_bounds tabC9 40 1 1 (by decide) (by decide)
    (by decide) (by decide) (by decide) (by decide) (by decide) (by decide)

/-- C10: the atlas is written to the user's output path with its extension
replaced by `"bmfa"`, while the pre-flight existence check inspects the
path exactly as given: on the concrete scenario the output `atlas.png`
does not exist (so validation passes) while `atlas.bmfa` already exists,
and the pipeline completes, writing to the pre-existing `atlas.bmfa`. -/
theorem C10_extension_rewrite_overwrites :
    verify_opt fsC10 optC10 = .ok () ∧
    optC10.output_path.set_extension "bmfa" = pBmfa ∧
    pBmfa ≠ optC10.output_path ∧
    fsC10.path_exists pBmfa = true ∧
    fsC10.path_exists optC10.output_path = false ∧
    run_app_model envC10 optC10 = .ok pBmfa ∧
    main_model envC10 optC10 = .ok pBmfa := by
  refine ⟨rfl, rfl, by decide, rfl, rfl, rfl, rfl⟩
